import Mathlib

/-!
Verification model of `src/main.cpp` of the QURTest repository.

The program is a thin orchestration over external libraries (bc-ur,
libqrencode, lifehash, OpenCV).  We shallowly embed the locally defined
logic: the `CommandLineArguments` record and `ParseCommandLineArguments`
(including the exact assertion conditions and the undefined behaviour on a
missing flag value), `CreateUrs` / `GenerateSinglePartUr` /
`GenerateMultiPartUr` over an abstract model of `ur::UREncoder`, the call
order of `main`, and the display loop of `Present`.  External library
calls are parameters of the corresponding Lean functions.
-/

set_option maxRecDepth 8192

/-- Outcome of running a code path of `main.cpp` that can abort the
process.  `ok` is a normal return; `helpExit` is the `exit(0)` after
printing the usage text (the `-h` branch); `assertFail` is a failed
`assert(...)` (abnormal termination via `abort`); `exn` is a C++ exception
escaping from `std::stoul` (`std::invalid_argument` or
`std::out_of_range`); `nullDeref` is the undefined behaviour of
constructing a `std::string` from the null pointer `argv[argc]`. -/
inductive ProcOutcome (α : Type) where
  | ok (a : α)
  | helpExit
  | assertFail (msg : String)
  | exn
  | nullDeref
deriving DecidableEq

/-- Modulus of the C++ `unsigned long` type (64-bit on the target
platform), used by the `std::stoul` model. -/
def ULONG_MOD : Nat := 2 ^ 64

/-- Value of a digit string, as accumulated by `strtoul`. -/
def digitsToNat (ds : List Char) : Nat :=
  ds.foldl (fun a c => 10 * a + (c.toNat - 48)) 0

/-- Digit-consuming core of the `std::stoul` model: reads a maximal run of
decimal digits; no digit at all is `std::invalid_argument`, a magnitude
above `ULONG_MAX` is `std::out_of_range` (both modelled as `none`, an
escaping exception); a leading minus sign negates modulo `2^64` as
specified for `strtoul`. -/
def stoulDigits (neg : Bool) (cs : List Char) : Option Nat :=
  let ds := cs.takeWhile Char.isDigit
  if ds.isEmpty then none
  else if ULONG_MOD ≤ digitsToNat ds then none
  else if neg then some ((ULONG_MOD - digitsToNat ds) % ULONG_MOD)
  else some (digitsToNat ds)

/-- Model of `std::stoul(s)` (base 10): skip leading whitespace, accept an
optional sign, then require at least one decimal digit; trailing
characters are ignored.  `none` models a thrown exception. -/
def stoul (s : String) : Option Nat :=
  match s.toList.dropWhile Char.isWhitespace with
  | '-' :: cs => stoulDigits true cs
  | '+' :: cs => stoulDigits false cs
  | cs => stoulDigits false cs

/-- Implementation-defined conversion of an `unsigned long` value to the
C++ `int` fields (`qrSize`, `fps`): two's-complement 32-bit narrowing. -/
def toIntWrap32 (n : Nat) : Int :=
  if n % 2 ^ 32 < 2 ^ 31 then ((n % 2 ^ 32 : Nat) : Int)
  else ((n % 2 ^ 32 : Nat) : Int) - 2 ^ 32

/-- Mirror of `struct CommandLineArguments` (src/main.cpp lines 40-56)
with its default member initialisers.  `size_t` fields are `Nat`, `int`
fields are `Int`. -/
structure CommandLineArguments where
  isSinglePart : Bool := true
  messageLength : Nat := 100
  maxFragmentLength : Nat := 100
  numExtraParts : Nat := 0
  qrSize : Int := 256
  lifeHashImageSize : Int := 128
  fps : Int := 4
deriving DecidableEq

/-- The `for` loop of `ParseCommandLineArguments` (src/main.cpp lines
67-115), processing `argv[1] .. argv[argc-1]` as a list.  The branch order
is that of the source's `if`/`else if` chain.  In every value-taking
branch the source first executes `assert(i+1 <= argc && "Value
expected.")`; since the loop runs under `i < argc`, that condition is
always true and the assertion can never fire.  The source then reads
`std::string(argv[++i])`: when the flag is the last argument this reads
`argv[argc]`, the null terminator of the argument array, which is the
undefined behaviour modelled by `ProcOutcome.nullDeref`.  A `stoul`
exception (`none`) propagates out of the function (`ProcOutcome.exn`). -/
def parseLoop (r : CommandLineArguments) : List String → ProcOutcome CommandLineArguments
  | [] => ProcOutcome.ok r
  | arg :: rest =>
    if arg = "-m" then
      parseLoop { r with isSinglePart := false } rest
    else if arg = "-l" then
      match rest with
      | [] => ProcOutcome.nullDeref
      | v :: rest2 =>
        match stoul v with
        | none => ProcOutcome.exn
        | some n => parseLoop { r with messageLength := n } rest2
    else if arg = "-f" then
      match rest with
      | [] => ProcOutcome.nullDeref
      | v :: rest2 =>
        match stoul v with
        | none => ProcOutcome.exn
        | some n => parseLoop { r with maxFragmentLength := n } rest2
    else if arg = "-e" then
      match rest with
      | [] => ProcOutcome.nullDeref
      | v :: rest2 =>
        match stoul v with
        | none => ProcOutcome.exn
        | some n => parseLoop { r with numExtraParts := n } rest2
    else if arg = "-h" then
      ProcOutcome.helpExit
    else if arg = "-s" then
      match rest with
      | [] => ProcOutcome.nullDeref
      | v :: rest2 =>
        match stoul v with
        | none => ProcOutcome.exn
        | some n => parseLoop { r with qrSize := toIntWrap32 n } rest2
    else if arg = "-t" then
      match rest with
      | [] => ProcOutcome.nullDeref
      | v :: rest2 =>
        match stoul v with
        | none => ProcOutcome.exn
        | some n => parseLoop { r with fps := toIntWrap32 n } rest2
    else
      ProcOutcome.assertFail "Unexpected command line argument"

/-- `const size_t MAX_LENGTH = 2956 / 2 - 13` (src/main.cpp line 117). -/
def MAX_LENGTH : Nat := 2956 / 2 - 13

/-- `ParseCommandLineArguments` (src/main.cpp lines 64-128): run the
argument loop on `argv[1] .. argv[argc-1]`, then perform the startup range
assertions on the resulting record before returning it. -/
def ParseCommandLineArguments (args : List String) : ProcOutcome CommandLineArguments :=
  match parseLoop {} args with
  | ProcOutcome.ok result =>
    if result.isSinglePart then
      if result.messageLength ≤ MAX_LENGTH then ProcOutcome.ok result
      else ProcOutcome.assertFail "Message too long for single part UR"
    else
      if result.messageLength ≥ result.maxFragmentLength ∧ result.maxFragmentLength ≤ MAX_LENGTH then
        ProcOutcome.ok result
      else ProcOutcome.assertFail "Fragment too long"
  | o => o

/-- Model of the external `ur::UREncoder` object constructed by
`GenerateMultiPartUr`.  In bc-ur, `seq_len()` returns the fragment count,
which is fixed at construction (the fragment list is never modified), and
`next_part()` returns the next part string while advancing only the
mutable part-sequence state, modelled here by `partState` of abstract type
`σ` and the transition function `nextPartFn`. -/
structure UREncoder (σ : Type) where
  seqLen : Nat
  partState : σ
  nextPartFn : σ → String × σ

/-- `encoder.next_part()`: produce the next UR part string and the updated
encoder. -/
def UREncoder.next_part {σ : Type} (e : UREncoder σ) : String × UREncoder σ :=
  (e.nextPartFn e.partState |>.1, { e with partState := (e.nextPartFn e.partState).2 })

/-- The body of the `for` loop of `GenerateMultiPartUr` (src/main.cpp
lines 176-179): call `next_part()` the given number of times, collecting
the returned strings in order. -/
def nextParts {σ : Type} : Nat → UREncoder σ → List String
  | 0, _ => []
  | n + 1, e => (e.next_part).1 :: nextParts n (e.next_part).2

/-- `GenerateSinglePartUr` (src/main.cpp lines 159-162): a direct call to
the external `ur::UREncoder::encode`, passed here as the parameter
`encode`. -/
def GenerateSinglePartUr {UR : Type} (encode : UR → String) (message : UR) : String :=
  encode message

/-- `GenerateMultiPartUr` (src/main.cpp lines 171-181): construct a
`ur::UREncoder` from the message and the maximum fragment length (the
external constructor is the parameter `mk`), then loop
`for (i = 0; i < encoder.seq_len() + numExtraParts; ++i)` emplacing
`encoder.next_part()`. -/
def GenerateMultiPartUr {UR σ : Type} (mk : UR → Nat → UREncoder σ) (message : UR)
    (maxFragmentLen : Nat) (numExtraParts : Nat) : List String :=
  nextParts ((mk message maxFragmentLen).seqLen + numExtraParts) (mk message maxFragmentLen)

/-- `CreateUrs` (src/main.cpp lines 211-218): single-part encoding as a
one-element vector when `args.isSinglePart`, otherwise the multi-part
encoding. -/
def CreateUrs {UR σ : Type} (encode : UR → String) (mk : UR → Nat → UREncoder σ)
    (message : UR) (args : CommandLineArguments) : List String :=
  if args.isSinglePart then [GenerateSinglePartUr encode message]
  else GenerateMultiPartUr mk message args.maxFragmentLength args.numExtraParts

/-- The pipeline steps of the program, at the granularity named by the
specification:  argument parsing, random message generation
(`MakeMessage`), CBOR-wrapping the message as a UR object (the rest of
`MakeMessageUr`), lifehash rendering (`CreateLifeHashImage`), UR string
encoding (`CreateUrs`), QR image rendering (`CreateQurImages`), and the
compositing/animation of `Present`. -/
inductive MainStep where
  | parseArguments
  | makeMessage
  | wrapUr
  | createLifeHashImage
  | createUrs
  | createQurImages
  | present
deriving DecidableEq

/-- Steps performed by `MakeMessageUr` (src/main.cpp lines 146-152): call
`MakeMessage`, then CBOR-encode the bytes and wrap them as a `ur::UR`. -/
def makeMessageUrSteps : List MainStep :=
  [MainStep.makeMessage, MainStep.wrapUr]

/-- The call order of `main` (src/main.cpp lines 284-299):
`ParseCommandLineArguments`, `MakeMessageUr`, `CreateLifeHashImage`,
`CreateUrs`, `CreateQurImages`, `Present`. -/
def mainSteps : List MainStep :=
  [MainStep.parseArguments] ++ makeMessageUrSteps ++
    [MainStep.createLifeHashImage, MainStep.createUrs, MainStep.createQurImages, MainStep.present]

/-- The pipeline order as the specification words it (spec section 2):
parse arguments, generate random message, wrap as UR object, encode as UR
strings, render QR images, render lifehash image, composite and animate.
This definition follows the specification's words, to be compared with
`mainSteps`, which follows the source. -/
def specPipelineSteps : List MainStep :=
  [MainStep.parseArguments, MainStep.makeMessage, MainStep.wrapUr,
    MainStep.createUrs, MainStep.createQurImages, MainStep.createLifeHashImage, MainStep.present]

/-- The display loop of `Present` (src/main.cpp lines 275-280) over the
finite list of key codes returned by the successive `cv::waitKey` calls
(`-1` on timeout).  `n` is `images.size()`, `i` the current index.  The
loop condition `cv::waitKey(...) != 27` is tested first; while it holds,
`images[i]` is shown and `i` becomes `(i + 1) % n` (C++17 sequencing of
`i = (++i) % images.size()`).  The result is the list of indices shown and
whether the loop terminated (a key equal to `27` was returned) before the
key list ran out. -/
def presentLoop (n : Nat) (i : Nat) : List Int → List Nat × Bool
  | [] => ([], false)
  | key :: keys =>
    if key = 27 then ([], true)
    else
      ((i :: (presentLoop n ((i + 1) % n) keys).1), (presentLoop n ((i + 1) % n) keys).2)

theorem parseLoop_ok_props (r : CommandLineArguments) (xs : List String) :
    ∀ r' : CommandLineArguments, parseLoop r xs = ProcOutcome.ok r' →
      (∀ ys, parseLoop r (xs ++ ys) = parseLoop r' ys) ∧
      r'.lifeHashImageSize = r.lifeHashImageSize ∧
      ("-m" ∈ xs → r'.isSinglePart = false) ∧
      ("-m" ∉ xs → r'.isSinglePart = r.isSinglePart) := by
  induction r, xs using parseLoop.induct with
  | case1 r =>
    intro r' h
    rw [parseLoop.eq_def] at h
    simp only [ProcOutcome.ok.injEq] at h
    subst h
    exact ⟨fun ys => rfl, rfl, fun hm => absurd hm (by simp), fun _ => rfl⟩
  | case2 r rest2 ih =>
    intro r' h
    rw [parseLoop.eq_def] at h
    simp only [] at h
    obtain ⟨ha, hl, hm, hn⟩ := ih r' h
    refine ⟨fun ys => ?_, hl, fun _ => ?_, fun hc => absurd (List.mem_cons_self _ _) hc⟩
    · rw [List.cons_append, parseLoop.eq_def]
      simp only []
      exact ha ys
    · by_cases hm2 : "-m" ∈ rest2
      · exact hm hm2
      · exact hn hm2
  | case3 r _ =>
    intro r' h; rw [parseLoop.eq_def] at h; simp at h
  | case4 r v rest2 hs _ =>
    intro r' h; rw [parseLoop.eq_def] at h; simp [hs] at h
  | case5 r v rest2 n hs _ ih =>
    intro r' h
    rw [parseLoop.eq_def] at h
    simp only [hs] at h
    obtain ⟨ha, hl, hm, hn⟩ := ih r' h
    refine ⟨fun ys => ?_, hl, fun hmem => ?_, fun hc => ?_⟩
    · rw [List.cons_append, List.cons_append, parseLoop.eq_def]
      simp only [hs]
      exact ha ys
    · rcases List.mem_cons.mp hmem with h1 | hmem2
      · exact absurd h1 (by decide)
      · rcases List.mem_cons.mp hmem2 with h2 | hmem3
        · rw [← h2] at hs
          rw [show stoul "-m" = none from rfl] at hs
          exact Option.noConfusion hs
        · exact hm hmem3
    · exact hn fun hc2 => hc (List.mem_cons_of_mem _ (List.mem_cons_of_mem _ hc2))
  | case6 r _ _ =>
    intro r' h; rw [parseLoop.eq_def] at h; simp at h
  | case7 r v rest2 hs _ _ =>
    intro r' h; rw [parseLoop.eq_def] at h; simp [hs] at h
  | case8 r v rest2 n hs _ _ ih =>
    intro r' h
    rw [parseLoop.eq_def] at h
    simp only [hs] at h
    obtain ⟨ha, hl, hm, hn⟩ := ih r' h
    refine ⟨fun ys => ?_, hl, fun hmem => ?_, fun hc => ?_⟩
    · rw [List.cons_append, List.cons_append, parseLoop.eq_def]
      simp only [hs]
      exact ha ys
    · rcases List.mem_cons.mp hmem with h1 | hmem2
      · exact absurd h1 (by decide)
      · rcases List.mem_cons.mp hmem2 with h2 | hmem3
        · rw [← h2] at hs
          rw [show stoul "-m" = none from rfl] at hs
          exact Option.noConfusion hs
        · exact hm hmem3
    · exact hn fun hc2 => hc (List.mem_cons_of_mem _ (List.mem_cons_of_mem _ hc2))
  | case9 r _ _ _ =>
    intro r' h; rw [parseLoop.eq_def] at h; simp at h
  | case10 r v rest2 hs _ _ _ =>
    intro r' h; rw [parseLoop.eq_def] at h; simp [hs] at h
  | case11 r v rest2 n hs _ _ _ ih =>
    intro r' h
    rw [parseLoop.eq_def] at h
    simp only [hs] at h
    obtain ⟨ha, hl, hm, hn⟩ := ih r' h
    refine ⟨fun ys => ?_, hl, fun hmem => ?_, fun hc => ?_⟩
    · rw [List.cons_append, List.cons_append, parseLoop.eq_def]
      simp only [hs]
      exact ha ys
    · rcases List.mem_cons.mp hmem with h1 | hmem2
      · exact absurd h1 (by decide)
      · rcases List.mem_cons.mp hmem2 with h2 | hmem3
        · rw [← h2] at hs
          rw [show stoul "-m" = none from rfl] at hs
          exact Option.noConfusion hs
        · exact hm hmem3
    · exact hn fun hc2 => hc (List.mem_cons_of_mem _ (List.mem_cons_of_mem _ hc2))
  | case12 r rest2 _ _ _ _ =>
    intro r' h; rw [parseLoop.eq_def] at h; simp at h
  | case13 r _ _ _ _ _ =>
    intro r' h; rw [parseLoop.eq_def] at h; simp at h
  | case14 r v rest2 hs _ _ _ _ _ =>
    intro r' h; rw [parseLoop.eq_def] at h; simp [hs] at h
  | case15 r v rest2 n hs _ _ _ _ _ ih =>
    intro r' h
    rw [parseLoop.eq_def] at h
    simp only [hs] at h
    obtain ⟨ha, hl, hm, hn⟩ := ih r' h
    refine ⟨fun ys => ?_, hl, fun hmem => ?_, fun hc => ?_⟩
    · rw [List.cons_append, List.cons_append, parseLoop.eq_def]
      simp only [hs]
      exact ha ys
    · rcases List.mem_cons.mp hmem with h1 | hmem2
      · exact absurd h1 (by decide)
      · rcases List.mem_cons.mp hmem2 with h2 | hmem3
        · rw [← h2] at hs
          rw [show stoul "-m" = none from rfl] at hs
          exact Option.noConfusion hs
        · exact hm hmem3
    · exact hn fun hc2 => hc (List.mem_cons_of_mem _ (List.mem_cons_of_mem _ hc2))
  | case16 r _ _ _ _ _ _ =>
    intro r' h; rw [parseLoop.eq_def] at h; simp at h
  | case17 r v rest2 hs _ _ _ _ _ _ =>
    intro r' h; rw [parseLoop.eq_def] at h; simp [hs] at h
  | case18 r v rest2 n hs _ _ _ _ _ _ ih =>
    intro r' h
    rw [parseLoop.eq_def] at h
    simp only [hs] at h
    obtain ⟨ha, hl, hm, hn⟩ := ih r' h
    refine ⟨fun ys => ?_, hl, fun hmem => ?_, fun hc => ?_⟩
    · rw [List.cons_append, List.cons_append, parseLoop.eq_def]
      simp only [hs]
      exact ha ys
    · rcases List.mem_cons.mp hmem with h1 | hmem2
      · exact absurd h1 (by decide)
      · rcases List.mem_cons.mp hmem2 with h2 | hmem3
        · rw [← h2] at hs
          rw [show stoul "-m" = none from rfl] at hs
          exact Option.noConfusion hs
        · exact hm hmem3
    · exact hn fun hc2 => hc (List.mem_cons_of_mem _ (List.mem_cons_of_mem _ hc2))
  | case19 r v rest2 h1 h2 h3 h4 h5 h6 h7 =>
    intro r' h
    rw [parseLoop.eq_def] at h
    simp [h1, h2, h3, h4, h5, h6, h7] at h

theorem parse_ok_loop_ok (args : List String) (r : CommandLineArguments)
    (h : ParseCommandLineArguments args = ProcOutcome.ok r) :
    parseLoop {} args = ProcOutcome.ok r := by
  unfold ParseCommandLineArguments at h
  cases hp : parseLoop {} args with
  | ok result =>
    rw [hp] at h
    simp only [] at h
    split_ifs at h <;> simp_all
  | helpExit => rw [hp] at h; simp at h
  | assertFail m => rw [hp] at h; simp at h
  | exn => rw [hp] at h; simp at h
  | nullDeref => rw [hp] at h; simp at h

theorem nextParts_length {σ : Type} : ∀ (n : Nat) (e : UREncoder σ), (nextParts n e).length = n := by
  intro n
  induction n with
  | zero => intro e; rfl
  | succ m ih => intro e; simp [nextParts, ih]

theorem presentLoop_index_bound (n : Nat) (hn : 0 < n) (keys : List Int) :
    ∀ i : Nat, i < n → ∀ j ∈ (presentLoop n i keys).1, j < n := by
  induction keys with
  | nil => intro i hi j hj; simp [presentLoop] at hj
  | cons k ks ih =>
    intro i hi j hj
    by_cases hk : k = 27
    · simp [presentLoop, hk] at hj
    · simp only [presentLoop, if_neg hk] at hj
      rcases List.mem_cons.mp hj with rfl | hj2
      · exact hi
      · exact ih ((i + 1) % n) (Nat.mod_lt _ hn) j hj2

theorem presentLoop_terminates_iff (n : Nat) (keys : List Int) :
    ∀ i : Nat, (presentLoop n i keys).2 = true ↔ (27 : Int) ∈ keys := by
  induction keys with
  | nil => intro i; simp [presentLoop]
  | cons k ks ih =>
    intro i
    by_cases hk : k = 27
    · simp [presentLoop, hk]
    · simp only [presentLoop, if_neg hk]
      rw [ih ((i + 1) % n)]
      constructor
      · exact fun hm => List.mem_cons_of_mem _ hm
      · intro hm
        rcases List.mem_cons.mp hm with h1 | h1
        · exact absurd h1.symm hk
        · exact h1

/-- C1: the specification says a value-taking flag (`-l`, `-f`, `-e`, `-s`,
`-t`) appearing last with no value triggers the `assert(i+1 <= argc &&
"Value expected.")`.  In the code that condition is vacuously true for
every loop index (`i < argc` implies `i+1 <= argc`), so the assertion
never fires; instead `std::string(argv[++i])` is constructed from the null
pointer `argv[argc]` — undefined behaviour, modelled as
`ProcOutcome.nullDeref`, not `ProcOutcome.assertFail`. -/
theorem C1_missing_value_is_null_deref :
    ParseCommandLineArguments ["-l"] = ProcOutcome.nullDeref ∧
    ParseCommandLineArguments ["-f"] = ProcOutcome.nullDeref ∧
    ParseCommandLineArguments ["-e"] = ProcOutcome.nullDeref ∧
    ParseCommandLineArguments ["-s"] = ProcOutcome.nullDeref ∧
    ParseCommandLineArguments ["-t"] = ProcOutcome.nullDeref :=
  ⟨rfl, rfl, rfl, rfl, rfl⟩

/-- C2: every record returned by `ParseCommandLineArguments` satisfies the
startup range checks (`messageLength ≤ 1465` in single-part mode;
`maxFragmentLength ≤ messageLength` and `maxFragmentLength ≤ 1465` in
multi-part mode), and an argument vector whose parsed record violates the
applicable check yields an assertion failure instead of a return. -/
theorem C2_startup_range_checks :
    (∀ (args : List String) (r : CommandLineArguments),
      ParseCommandLineArguments args = ProcOutcome.ok r →
      (r.isSinglePart = true → r.messageLength ≤ 1465) ∧
      (r.isSinglePart = false → r.maxFragmentLength ≤ r.messageLength ∧ r.maxFragmentLength ≤ 1465)) ∧
    (∀ (args : List String) (r : CommandLineArguments),
      parseLoop {} args = ProcOutcome.ok r →
      ¬((r.isSinglePart = true → r.messageLength ≤ 1465) ∧
        (r.isSinglePart = false → r.maxFragmentLength ≤ r.messageLength ∧ r.maxFragmentLength ≤ 1465)) →
      ∃ msg, ParseCommandLineArguments args = ProcOutcome.assertFail msg) := by
  constructor
  · intro args r h
    unfold ParseCommandLineArguments at h
    cases hp : parseLoop {} args with
    | ok result =>
      rw [hp] at h
      simp only [] at h
      by_cases hb : result.isSinglePart = true
      · rw [if_pos hb] at h
        by_cases hc : result.messageLength ≤ MAX_LENGTH
        · rw [if_pos hc] at h
          cases h
          refine ⟨fun _ => hc, fun hf => ?_⟩
          rw [hb] at hf
          exact absurd hf (by decide)
        · rw [if_neg hc] at h
          exact absurd h (by simp)
      · rw [if_neg hb] at h
        by_cases hc : result.messageLength ≥ result.maxFragmentLength ∧
            result.maxFragmentLength ≤ MAX_LENGTH
        · rw [if_pos hc] at h
          cases h
          refine ⟨fun ht => ?_, fun _ => ⟨hc.1, hc.2⟩⟩
          exact absurd ht hb
        · rw [if_neg hc] at h
          exact absurd h (by simp)
    | helpExit => rw [hp] at h; exact absurd h (by simp)
    | assertFail m => rw [hp] at h; exact absurd h (by simp)
    | exn => rw [hp] at h; exact absurd h (by simp)
    | nullDeref => rw [hp] at h; exact absurd h (by simp)
  · intro args r hp hviol
    unfold ParseCommandLineArguments
    rw [hp]
    simp only []
    by_cases hb : r.isSinglePart = true
    · rw [if_pos hb]
      by_cases hc : r.messageLength ≤ MAX_LENGTH
      · refine absurd ⟨fun _ => hc, fun hf => ?_⟩ hviol
        rw [hb] at hf
        exact absurd hf (by decide)
      · rw [if_neg hc]
        exact ⟨_, rfl⟩
    · rw [if_neg hb]
      by_cases hc : r.messageLength ≥ r.maxFragmentLength ∧ r.maxFragmentLength ≤ MAX_LENGTH
      · exact absurd ⟨fun ht => absurd ht hb, fun _ => ⟨hc.1, hc.2⟩⟩ hviol
      · rw [if_neg hc]
        exact ⟨_, rfl⟩

theorem C2_witness :
    ((⟨true, 50, 100, 0, 256, 128, 4⟩ : CommandLineArguments).isSinglePart = true →
      (⟨true, 50, 100, 0, 256, 128, 4⟩ : CommandLineArguments).messageLength ≤ 1465) ∧
    ((⟨true, 50, 100, 0, 256, 128, 4⟩ : CommandLineArguments).isSinglePart = false →
      (⟨true, 50, 100, 0, 256, 128, 4⟩ : CommandLineArguments).maxFragmentLength ≤
        (⟨true, 50, 100, 0, 256, 128, 4⟩ : CommandLineArguments).messageLength ∧
      (⟨true, 50, 100, 0, 256, 128, 4⟩ : CommandLineArguments).maxFragmentLength ≤ 1465) :=
  C2_startup_range_checks.1 ["-l", "50"] ⟨true, 50, 100, 0, 256, 128, 4⟩ rfl

/-- C3 counterexample: the order of the steps executed by `main` is not
the order claimed (parse, generate message, wrap as UR, encode UR strings,
render QR images, render lifehash, composite and animate): in the code the
lifehash image is rendered before the UR strings are encoded and the QR
images rendered. -/
theorem C3_counterexample : mainSteps ≠ specPipelineSteps := by decide

/-- C3 (amended): `main` executes exactly the pipeline parse arguments,
generate random message, wrap as UR object, render the lifehash image from
the message bytes, encode as UR strings, render QR images from those
strings, composite and animate — i.e. the claimed pipeline with the
lifehash step moved before UR encoding. -/
theorem C3_pipeline_order :
    mainSteps = [MainStep.parseArguments, MainStep.makeMessage, MainStep.wrapUr,
      MainStep.createLifeHashImage, MainStep.createUrs, MainStep.createQurImages,
      MainStep.present] := by decide

/-- C4 counterexample: an argument vector containing `-h` preceded by an
unrecognized argument aborts on the assertion for the unrecognized
argument; it does not print the usage text and exit 0. -/
theorem C4_counterexample :
    ParseCommandLineArguments ["-x", "-h"] =
      ProcOutcome.assertFail "Unexpected command line argument" ∧
    ParseCommandLineArguments ["-x", "-h"] ≠ ProcOutcome.helpExit :=
  ⟨rfl, by decide⟩

/-- C4 (amended): for every argument vector in which `-h` occurs at a
position actually reached by the parsing loop (every earlier argument is
processed without aborting, so `-h` is not consumed as a flag value), the
program prints the usage text and exits with status 0. -/
theorem C4_help_prints_and_exits (pre rest : List String) (r : CommandLineArguments)
    (h : parseLoop {} pre = ProcOutcome.ok r) :
    ParseCommandLineArguments (pre ++ "-h" :: rest) = ProcOutcome.helpExit := by
  have happ := (parseLoop_ok_props {} pre r h).1 ("-h" :: rest)
  have hh : parseLoop r ("-h" :: rest) = ProcOutcome.helpExit := by
    rw [parseLoop.eq_def]
    simp
  unfold ParseCommandLineArguments
  rw [happ, hh]

theorem C4_witness :
    ParseCommandLineArguments (["-m"] ++ "-h" :: ["zzz"]) = ProcOutcome.helpExit :=
  C4_help_prints_and_exits ["-m"] ["zzz"] ⟨false, 100, 100, 0, 256, 128, 4⟩ rfl

/-- C5: for every argument vector accepted by `ParseCommandLineArguments`,
if it does not contain `-m` then `CreateUrs` returns exactly one UR string
(the single-part encoding of the message), and if it contains `-m` then
`CreateUrs` returns the multi-part encoding. -/
theorem C5_create_urs {UR σ : Type} (encode : UR → String) (mk : UR → Nat → UREncoder σ)
    (message : UR) (args : List String) (r : CommandLineArguments)
    (h : ParseCommandLineArguments args = ProcOutcome.ok r) :
    ("-m" ∉ args → CreateUrs encode mk message r = [GenerateSinglePartUr encode message]) ∧
    ("-m" ∈ args → CreateUrs encode mk message r =
      GenerateMultiPartUr mk message r.maxFragmentLength r.numExtraParts) := by
  have hp := parse_ok_loop_ok args r h
  have hprops := parseLoop_ok_props {} args r hp
  constructor
  · intro hnot
    have hsingle : r.isSinglePart = true := hprops.2.2.2 hnot
    unfold CreateUrs
    rw [if_pos hsingle]
  · intro hmem
    have hsingle : r.isSinglePart = false := hprops.2.2.1 hmem
    unfold CreateUrs
    rw [if_neg (by simp [hsingle])]

theorem C5_witness :
    CreateUrs (fun s : String => s) (fun _ _ => UREncoder.mk 1 0 (fun st : Nat => ("part", st)))
        "msg" ⟨false, 100, 100, 0, 256, 128, 4⟩ =
      GenerateMultiPartUr (fun _ _ => UREncoder.mk 1 0 (fun st : Nat => ("part", st)))
        "msg" 100 0 :=
  (C5_create_urs (fun s : String => s)
      (fun _ _ => UREncoder.mk 1 0 (fun st : Nat => ("part", st)))
      "msg" ["-m"] ⟨false, 100, 100, 0, 256, 128, 4⟩ rfl).2 (by decide)

/-- C6: with a nonempty image list, every index shown by the display loop
of `Present` is in range (the index wraps modulo the list length), and the
loop terminates exactly when some `cv::waitKey` call returns the key code
27; no other key code ends it. -/
theorem C6_present_loop (n : Nat) (keys : List Int) (hn : 0 < n) :
    (∀ j ∈ (presentLoop n 0 keys).1, j < n) ∧
    ((presentLoop n 0 keys).2 = true ↔ (27 : Int) ∈ keys) :=
  ⟨presentLoop_index_bound n hn keys 0 hn, presentLoop_terminates_iff n keys 0⟩

theorem C6_witness :
    (∀ j ∈ (presentLoop 3 0 [(-1 : Int), 13, 27, 5]).1, j < 3) ∧
    ((presentLoop 3 0 [(-1 : Int), 13, 27, 5]).2 = true ↔
      (27 : Int) ∈ [(-1 : Int), 13, 27, 5]) :=
  C6_present_loop 3 [(-1 : Int), 13, 27, 5] (by decide)

/-- C7: a command-line argument that is none of the recognized flags
(`-m`, `-l`, `-f`, `-e`, `-h`, `-s`, `-t`) and is not consumed as the
value of a preceding flag (the loop reaches it after processing the
earlier arguments without aborting) makes the program abort via the
runtime assertion, with no recovery path. -/
theorem C7_unexpected_argument_asserts (pre rest : List String) (x : String)
    (r : CommandLineArguments)
    (hx : x ∉ ["-m", "-l", "-f", "-e", "-h", "-s", "-t"])
    (h : parseLoop {} pre = ProcOutcome.ok r) :
    ParseCommandLineArguments (pre ++ x :: rest) =
      ProcOutcome.assertFail "Unexpected command line argument" := by
  simp only [List.mem_cons, List.not_mem_nil, or_false, not_or] at hx
  obtain ⟨h1, h2, h3, h4, h5, h6, h7⟩ := hx
  have hxx : parseLoop r (x :: rest) =
      ProcOutcome.assertFail "Unexpected command line argument" := by
    rw [parseLoop.eq_def]
    simp [h1, h2, h3, h4, h5, h6, h7]
  have happ := (parseLoop_ok_props {} pre r h).1 (x :: rest)
  unfold ParseCommandLineArguments
  rw [happ, hxx]

theorem C7_witness :
    ParseCommandLineArguments (["-m"] ++ "--verbose" :: []) =
      ProcOutcome.assertFail "Unexpected command line argument" :=
  C7_unexpected_argument_asserts ["-m"] [] "--verbose" ⟨false, 100, 100, 0, 256, 128, 4⟩
    (by decide) rfl

/-- C8: with no command-line arguments, `ParseCommandLineArguments`
returns the default record: `isSinglePart = true`, `messageLength = 100`,
`maxFragmentLength = 100`, `numExtraParts = 0`, `qrSize = 256`,
`lifeHashImageSize = 128`, `fps = 4`. -/
theorem C8_default_arguments :
    ParseCommandLineArguments [] = ProcOutcome.ok ⟨true, 100, 100, 0, 256, 128, 4⟩ := rfl

/-- C9: for every message, maximum fragment length and number of extra
parts, `GenerateMultiPartUr` returns exactly `seq_len() + numExtraParts`
UR part strings, produced by calling `next_part()` that many times in
sequence. -/
theorem C9_multipart_count {UR σ : Type} (mk : UR → Nat → UREncoder σ) (message : UR)
    (maxFragmentLen numExtraParts : Nat) :
    (GenerateMultiPartUr mk message maxFragmentLen numExtraParts).length =
      (mk message maxFragmentLen).seqLen + numExtraParts := by
  unfold GenerateMultiPartUr
  exact nextParts_length _ _

/-- C10: every record returned by `ParseCommandLineArguments` has
`lifeHashImageSize = 128` (no flag modifies it), while each of the other
six fields is settable from the command line, witnessed by one accepted
argument vector per field. -/
theorem C10_lifehash_size_fixed :
    (∀ (args : List String) (r : CommandLineArguments),
      ParseCommandLineArguments args = ProcOutcome.ok r → r.lifeHashImageSize = 128) ∧
    ParseCommandLineArguments ["-m"] = ProcOutcome.ok ⟨false, 100, 100, 0, 256, 128, 4⟩ ∧
    ParseCommandLineArguments ["-l", "50"] = ProcOutcome.ok ⟨true, 50, 100, 0, 256, 128, 4⟩ ∧
    ParseCommandLineArguments ["-m", "-f", "50"] =
      ProcOutcome.ok ⟨false, 100, 50, 0, 256, 128, 4⟩ ∧
    ParseCommandLineArguments ["-e", "2"] = ProcOutcome.ok ⟨true, 100, 100, 2, 256, 128, 4⟩ ∧
    ParseCommandLineArguments ["-s", "300"] =
      ProcOutcome.ok ⟨true, 100, 100, 0, 300, 128, 4⟩ ∧
    ParseCommandLineArguments ["-t", "10"] =
      ProcOutcome.ok ⟨true, 100, 100, 0, 256, 128, 10⟩ := by
  refine ⟨?_, rfl, rfl, rfl, rfl, rfl, rfl⟩
  intro args r h
  have hp := parse_ok_loop_ok args r h
  exact (parseLoop_ok_props {} args r hp).2.1

theorem C10_witness :
    (⟨false, 100, 100, 0, 256, 128, 4⟩ : CommandLineArguments).lifeHashImageSize = 128 :=
  C10_lifehash_size_fixed.1 ["-m"] ⟨false, 100, 100, 0, 256, 128, 4⟩ rfl
